import Mathlib

/-!
Verification of the QR_Generator pipeline (src/pdf_generator.py and
src/qr_generator.py) against its natural-language specification.

The pipeline's own code (configuration dataclasses, the orchestrator loop
`process_records`, the composer `generate_pdf`, the path building and
directory creation) is embedded directly from the Python source.  The
external libraries it calls (`arabic_reshaper`, `bidi.algorithm`,
`qrcode`, `reportlab`, `os.makedirs`) are not part of the repository and
are modelled from the specification's description of their contracts;
each such definition carries a doc comment starting with
`Modelled from the spec:`.

Python machine-level details are embedded as follows: strings are Lean
`String`s, Python ints are `Nat`/`Int`, float coordinates produced by
`/` are exact rationals `ℚ` (all coordinate arithmetic in the source is
on small integers and halves, which floats represent exactly), and
fallible operations return `Except`.
-/

namespace QRGen

/-! ## Text shaper (`FarsiTextProcessor.process_text`, src/pdf_generator.py lines 45-60)

The source calls `arabic_reshaper.reshape` followed by
`bidi.algorithm.get_display`.  Both libraries are external to the
repository and are modelled from the specification (§4.1). -/

/-- `Modelled from the spec:` the set of Arabic-script letters subject to
contextual joining (the Arabic block letters U+0621..U+064A plus the
Farsi letters peh, tcheh, jeh, keheh, gaf and Farsi yeh). -/
def isArabicLetter (c : Char) : Bool :=
  decide ((0x621 ≤ c.toNat ∧ c.toNat ≤ 0x64A) ∨
    c.toNat ∈ ([0x67E, 0x686, 0x698, 0x6A9, 0x6AF, 0x6CC] : List Nat))

/-- `Modelled from the spec:` hamza does not join on either side. -/
def nonJoining (c : Char) : Bool := decide (c.toNat = 0x621)

/-- `Modelled from the spec:` Arabic letters that join only to the
preceding letter (alef and its variants, dal, thal, reh, zain, waw, jeh). -/
def joinsRightOnly (c : Char) : Bool :=
  decide (c.toNat ∈ ([0x622, 0x623, 0x624, 0x625, 0x627,
    0x62F, 0x630, 0x631, 0x632, 0x648, 0x698] : List Nat))

/-- `Modelled from the spec:` whether a letter can connect forward to the
letter after it (dual-joining letters only). -/
def connectsToNext (c : Char) : Bool :=
  isArabicLetter c && !joinsRightOnly c && !nonJoining c

/-- `Modelled from the spec:` whether a letter can receive a connection
from the letter before it. -/
def connectsToPrev (c : Char) : Bool :=
  isArabicLetter c && !nonJoining c

/-- The four contextual glyph forms of an Arabic-script letter. -/
inductive GlyphForm where
  | isolated
  | final
  | initial
  | medial
deriving DecidableEq, Repr

def GlyphForm.idx : GlyphForm → Nat
  | .isolated => 0
  | .final => 1
  | .initial => 2
  | .medial => 3

/-- `Modelled from the spec:` the presentation glyph of a letter in a
given joining form.  The spec does not fix the presentation-form code
table, so forms are modelled injectively in a private code area; only
Arabic-script letters are ever mapped here, non-Arabic characters pass
through `reshapeAux` unchanged. -/
def glyphFor (c : Char) (f : GlyphForm) : Char :=
  Char.ofNat (0xE000 + 4 * (c.toNat - 0x600) + f.idx)

/-- `Modelled from the spec:` one pass of the Arabic reshaper.
`prevConn` records whether the previous character can connect forward
into the current one.  Each Arabic-script letter is replaced by its
isolated/initial/medial/final presentation form according to its
neighbours; every other character is kept unchanged. -/
def reshapeAux (prevConn : Bool) : List Char → List Char
  | [] => []
  | c :: rest =>
    if isArabicLetter c then
      let nextConn := match rest with
        | [] => false
        | d :: _ => connectsToPrev d
      let joinPrev := prevConn && connectsToPrev c
      let joinNext := connectsToNext c && nextConn
      let form := if joinPrev then (if joinNext then GlyphForm.medial else GlyphForm.final)
                  else (if joinNext then GlyphForm.initial else GlyphForm.isolated)
      glyphFor c form :: reshapeAux (connectsToNext c) rest
    else
      c :: reshapeAux false rest

/-- `Modelled from the spec:` `arabic_reshaper.reshape` — contextual
joining-form substitution on Arabic-script letters, identity elsewhere. -/
def reshape (s : String) : String := String.mk (reshapeAux false s.data)

/-- `Modelled from the spec:` characters of the right-to-left scripts
(the Arabic block, and the presentation-form areas in which `glyphFor`
produces its glyphs, mirroring the Arabic Presentation Forms blocks). -/
def isRtlChar (c : Char) : Bool :=
  decide ((0x590 ≤ c.toNat ∧ c.toNat ≤ 0x6FF) ∨
    (0xE000 ≤ c.toNat ∧ c.toNat ≤ 0xF8FF) ∨
    (0xFB50 ≤ c.toNat ∧ c.toNat ≤ 0xFEFF))

/-- `Modelled from the spec:` characters with strong left-to-right
directionality (Latin letters). -/
def isStrongLtr (c : Char) : Bool :=
  decide ((65 ≤ c.toNat ∧ c.toNat ≤ 90) ∨ (97 ≤ c.toNat ∧ c.toNat ≤ 122))

/-- `Modelled from the spec:` the paragraph direction of the bidirectional
algorithm — the direction of the first strong character (`some true` =
right-to-left). -/
def firstStrong : List Char → Option Bool
  | [] => none
  | c :: rest =>
    if isRtlChar c then some true
    else if isStrongLtr c then some false
    else firstStrong rest

/-- `Modelled from the spec:` base paragraph direction, defaulting to
left-to-right when there is no strong character. -/
def baseRtl (cs : List Char) : Bool := (firstStrong cs).getD false

/-- Helper for `revRunsBy`: `run` holds the current (still open) run of
characters satisfying `p`, already in reversed order. -/
def revRunsAux (p : Char → Bool) (run : List Char) : List Char → List Char
  | [] => run
  | c :: rest =>
    if p c then revRunsAux p (c :: run) rest
    else run ++ c :: revRunsAux p [] rest

/-- `Modelled from the spec:` reverse every maximal run of characters
satisfying `p`, keeping everything else in place. -/
def revRunsBy (p : Char → Bool) (l : List Char) : List Char :=
  revRunsAux p [] l

/-- `Modelled from the spec:` `bidi.algorithm.get_display` — reorder the
logical character sequence into visual left-to-right order: with a
left-to-right base direction each right-to-left run is reversed in
place; with a right-to-left base direction the left-to-right runs are
kept intact and the line as a whole is reversed. -/
def get_display (s : String) : String :=
  if baseRtl s.data then
    String.mk ((revRunsBy (fun c => !isRtlChar c) s.data).reverse)
  else
    String.mk (revRunsBy isRtlChar s.data)

/-- `FarsiTextProcessor.process_text` (src/pdf_generator.py lines 48-60):
reshape, then reorder for display. -/
def process_text (raw_text : String) : String :=
  get_display (reshape raw_text)

/-! ## QR encoder (`QRCodeGenerator.generate`, src/pdf_generator.py lines 63-90
and src/qr_generator.py lines 27-54)

Both files construct a `qrcode.QRCode` from the configuration, call
`add_data(data)` and `make(fit=True)`, and render with `make_image`.
The `qrcode` library itself is external to the repository; its mode
selection, capacity fit and rasterisation are modelled from the
specification (§4.2). -/

/-- `QRCodeConfig` dataclass (src/pdf_generator.py lines 15-24 and
src/qr_generator.py lines 8-24).  `error_correction` is the library's
integer constant (`ERROR_CORRECT_M = 0`, `L = 1`, `H = 2`, `Q = 3`). -/
structure QRCodeConfig where
  version : Nat
  error_correction : Nat
  box_size : Nat
  border : Nat
  fill_color : String
  back_color : String
deriving DecidableEq, Repr

/-- QR data-encoding modes. -/
inductive Mode where
  | numeric
  | alphanumeric
  | byte
deriving DecidableEq, Repr

/-- The 45-character alphanumeric-mode charset. -/
def alnumChars : List Char := "0123456789ABCDEFGHIJKLMNOPQRSTUVWXYZ $%*+-./:".data

/-- `Modelled from the spec:` the encoder "chooses encoding mode per
character set of `data` (numeric/alphanumeric/byte)". -/
def selectMode (s : String) : Mode :=
  if s.data.all (fun c => c.isDigit) then .numeric
  else if s.data.all (fun c => alnumChars.contains c) then .alphanumeric
  else .byte

/-- Width in bits of the character-count field, by mode and version band
(1-9, 10-26, 27-40). -/
def charCountBits (m : Mode) (v : Nat) : Nat :=
  match m with
  | .numeric => if v ≤ 9 then 10 else if v ≤ 26 then 12 else 14
  | .alphanumeric => if v ≤ 9 then 9 else if v ≤ 26 then 11 else 13
  | .byte => if v ≤ 9 then 8 else 16

/-- Number of UTF-8 bytes of one character (byte mode encodes the UTF-8
encoding of the string). -/
def utf8Bytes (c : Char) : Nat :=
  if c.toNat < 0x80 then 1
  else if c.toNat < 0x800 then 2
  else if c.toNat < 0x10000 then 3
  else 4

/-- UTF-8 byte length of a string. -/
def byteLength (s : String) : Nat :=
  s.data.foldl (fun a c => a + utf8Bytes c) 0

/-- `Modelled from the spec:` payload bits of the data segment in each
mode: numeric packs 3 digits in 10 bits (remainders of 1 and 2 digits in
4 and 7 bits), alphanumeric packs 2 characters in 11 bits (an odd
character in 6), byte uses 8 bits per UTF-8 byte. -/
def dataBits (m : Mode) (s : String) : Nat :=
  match m with
  | .numeric =>
    10 * (s.length / 3) + (match s.length % 3 with | 0 => 0 | 1 => 4 | _ => 7)
  | .alphanumeric => 11 * (s.length / 2) + 6 * (s.length % 2)
  | .byte => 8 * byteLength s

/-- Data codewords per version at error-correction level L
(the standard QR code capacity table). -/
def dataCodewordsL : List Nat :=
  [19, 34, 55, 80, 108, 136, 156, 194, 232, 274,
   324, 370, 428, 461, 523, 589, 647, 721, 795, 861,
   932, 1006, 1094, 1174, 1276, 1370, 1468, 1531, 1631, 1735,
   1843, 1955, 2071, 2191, 2306, 2434, 2566, 2702, 2812, 2956]

/-- Data codewords per version at error-correction level M. -/
def dataCodewordsM : List Nat :=
  [16, 28, 44, 64, 86, 108, 124, 154, 182, 216,
   254, 290, 334, 365, 415, 453, 507, 563, 627, 669,
   714, 782, 860, 914, 1000, 1062, 1128, 1193, 1267, 1373,
   1455, 1541, 1631, 1725, 1812, 1914, 1992, 2102, 2216, 2334]

/-- Data codewords per version at error-correction level Q. -/
def dataCodewordsQ : List Nat :=
  [13, 22, 34, 48, 62, 76, 88, 110, 132, 154,
   180, 206, 244, 261, 295, 325, 367, 397, 445, 485,
   512, 568, 614, 664, 718, 754, 808, 871, 911, 985,
   1033, 1115, 1171, 1231, 1286, 1354, 1426, 1502, 1582, 1666]

/-- Data codewords per version at error-correction level H. -/
def dataCodewordsH : List Nat :=
  [9, 16, 26, 36, 46, 60, 66, 86, 100, 122,
   140, 158, 180, 197, 223, 253, 283, 313, 341, 385,
   406, 442, 464, 514, 538, 596, 628, 661, 701, 745,
   793, 845, 901, 961, 986, 1054, 1096, 1142, 1222, 1276]

/-- Data codewords available at version `v` (1-based) and
error-correction constant `ec` (library constants: M=0, L=1, H=2, Q=3). -/
def dataCodewords (ec v : Nat) : Nat :=
  (match ec with
   | 0 => dataCodewordsM
   | 1 => dataCodewordsL
   | 2 => dataCodewordsH
   | 3 => dataCodewordsQ
   | _ => []).getD (v - 1) 0

/-- Capacity in bits of version `v` at error-correction level `ec`. -/
def bitLimit (ec v : Nat) : Nat := 8 * dataCodewords ec v

/-- Whether a segment of mode `m` with `db` payload bits fits in version
`v` at level `ec` (4 mode bits + character-count field + payload). -/
def fitsVersion (ec : Nat) (m : Mode) (db : Nat) (v : Nat) : Bool :=
  decide (4 + charCountBits m v + db ≤ bitLimit ec v)

/-- Fuel-indexed search for `findFitFrom` (structural recursion on the
number of versions still to examine). -/
def findFitAux (ec : Nat) (m : Mode) (db : Nat) : Nat → Nat → Option Nat
  | 0, _ => none
  | fuel + 1, v =>
    if 40 < v then none
    else if fitsVersion ec m db v then some v
    else findFitAux ec m db fuel (v + 1)

/-- `Modelled from the spec:` the auto-expand search of `make(fit=True)`
— the smallest version `≥ v` (up to the maximum version 40) whose
capacity holds the data, or `none` when even version 40 overflows.
41 steps of fuel cover every start version. -/
def findFitFrom (ec : Nat) (m : Mode) (db : Nat) (v : Nat) : Option Nat :=
  findFitAux ec m db 41 v

/-- Version chosen for `data` under `config` (auto-expand from
`config.version`). -/
def bestVersion (config : QRCodeConfig) (data : String) : Option Nat :=
  let m := selectMode data
  findFitFrom config.error_correction m (dataBits m data) config.version

/-- Number of modules per side of a version-`v` symbol. -/
def modulesCount (v : Nat) : Nat := 4 * v + 17

/-- A deterministic seed computed from the data characters. -/
def dataSeed (s : String) : Nat :=
  s.data.foldl (fun a c => a * 131 + c.toNat) 7

/-- `Modelled from the spec:` the module grid.  The spec fixes the grid
to be a deterministic function of `(data, config)` with
`(version × 4 + 17)` modules per side, but does not describe the
bit-level placement (finder patterns, error-correction codewords,
masking); the dark/light choice of each module is therefore modelled as
an unspecified deterministic function of the data and the position. -/
def moduleAt (data : String) (v r c : Nat) : Bool :=
  (dataSeed data + v + 31 * r + 17 * c) % 2 = 0

/-- A raster image: a width, a height and a colour for every pixel. -/
structure Raster where
  width : Nat
  height : Nat
  pixelAt : Nat → Nat → String

/-- `Modelled from the spec:` `make_image` rasterisation — a square of
`(modules + 2·border) · box_size` pixels per side, each module an
aligned `box_size × box_size` block, the quiet zone (`border` modules on
every side) in `back_color`, dark modules in `fill_color` and light
modules in `back_color`. -/
def render (config : QRCodeConfig) (data : String) (v : Nat) : Raster :=
  let mc := modulesCount v
  let px := (mc + 2 * config.border) * config.box_size
  { width := px
    height := px
    pixelAt := fun x y =>
      let col := x / config.box_size
      let row := y / config.box_size
      if config.border ≤ row ∧ row < config.border + mc ∧
         config.border ≤ col ∧ col < config.border + mc then
        (if moduleAt data v (row - config.border) (col - config.border)
         then config.fill_color else config.back_color)
      else config.back_color }

/-- Errors of the QR encoder, named as in the specification (§7):
`invalidConfigError` for out-of-range `version`/`box_size`
(`qrcode` validates them at construction), `encodingCapacityError` when
the data exceeds the capacity of the maximum version (the library's
`DataOverflowError`). -/
inductive QRError where
  | invalidConfigError
  | encodingCapacityError
deriving DecidableEq, Repr

/-- `QRCodeGenerator.generate` (src/pdf_generator.py lines 69-90,
src/qr_generator.py lines 33-54): construct the symbol for `data`,
auto-expanding the version, and rasterise it.  Validation of the
configuration and the capacity failure are `Modelled from the spec:`
out-of-range `version`/`box_size`/`error_correction` fail with
`invalidConfigError`, capacity overflow with `encodingCapacityError`. -/
def generate (config : QRCodeConfig) (data : String) : Except QRError Raster :=
  if config.version < 1 ∨ 40 < config.version then .error .invalidConfigError
  else if 4 ≤ config.error_correction then .error .invalidConfigError
  else if config.box_size < 1 then .error .invalidConfigError
  else
    match bestVersion config data with
    | none => .error .encodingCapacityError
    | some v => .ok (render config data v)

/-! ## Paths and the filesystem (`FileSystem`, src/pdf_generator.py lines 93-113,
and the f-string path construction of `process_records`, lines 255 and 259) -/

/-- Fuel-indexed big-endian decimal digits (structural recursion; the
fuel is an upper bound on the argument, so the base case is only ever
reached at `n = 0`). -/
def decDigitsAux : Nat → Nat → List Nat
  | 0, n => [n]
  | fuel + 1, n => if n < 10 then [n] else decDigitsAux fuel (n / 10) ++ [n % 10]

/-- Big-endian decimal digits of a natural number, as Python's `str`
formats it in the f-strings `f"{index+1}-{raw_name}.png"`. -/
def decDigits (n : Nat) : List Nat := decDigitsAux n n

/-- Decimal string of a natural number (Python `str(n)` for `n ≥ 0`). -/
def natStr (n : Nat) : String :=
  String.mk ((decDigits n).map Nat.digitChar)

/-- `os.path.join` for a relative second component (the only case the
source exercises): join with a single separator. -/
def pathJoin (a b : String) : String := a ++ "/" ++ b

/-- `os.path.dirname`: everything before the last separator. -/
def dirname (s : String) : String :=
  String.mk (((s.data.reverse.dropWhile (fun c => c ≠ '/')).drop 1).reverse)

/-- The filesystem's directory set, as the list of directory path
strings that exist. -/
abbrev DirState := List String

/-- Split a character list on `/` (the segment view of a path). -/
def splitSlashAux (cur : List Char) : List Char → List (List Char)
  | [] => [cur.reverse]
  | c :: rest =>
    if c = '/' then cur.reverse :: splitSlashAux [] rest
    else splitSlashAux (c :: cur) rest

/-- Path segments of a string. -/
def splitSlash (p : String) : List (List Char) := splitSlashAux [] p.data

/-- Rejoin path segments with `/`. -/
def joinSlash : List (List Char) → List Char
  | [] => []
  | [s] => s
  | s :: rest => s ++ '/' :: joinSlash rest

/-- The set of directories recorded as existing after creating `p` with
all its ancestors: `p` itself and every `/`-prefix of it. -/
def mkdirsAdd (fs : DirState) (p : String) : DirState :=
  p :: ((List.range (splitSlash p).length).map
    (fun k => String.mk (joinSlash ((splitSlash p).take (k + 1))))) ++ fs

/-- `Modelled from the spec:` `os.makedirs(path, exist_ok=ok)` — creates
the directory and its missing parents; with `exist_ok=False` it raises
`FileExistsError` when the directory already exists, with
`exist_ok=True` it never raises. -/
def os_makedirs (fs : DirState) (p : String) (exist_ok : Bool) :
    Except String DirState :=
  if p ∈ fs ∧ exist_ok = false then .error "FileExistsError"
  else .ok (mkdirsAdd fs p)

/-- `FileSystem.create_directory` (src/pdf_generator.py lines 96-103):
`os.makedirs(directory_path, exist_ok=True)`.  With `exist_ok=True` the
call never raises (see `os_makedirs`), so it is embedded as the pure
directory-state update. -/
def create_directory (fs : DirState) (directory_path : String) : DirState :=
  mkdirsAdd fs directory_path

/-! ## Page composer (`PDFGenerator.generate_pdf`, src/pdf_generator.py lines 133-190)

The `reportlab` canvas is external; the composer is embedded as the
sequence of drawing operations it issues, in order, with exact rational
coordinates. -/

/-- `PDFConfig` dataclass (src/pdf_generator.py lines 27-42). -/
structure PDFConfig where
  page_size : Int × Int
  background_image : String
  title_font : String
  title_font_size : Int
  title_color : ℚ × ℚ × ℚ
  number_font : String
  number_font_size : Int
  number_color : ℚ × ℚ × ℚ
  qr_size : Int
  title_y_offset : Int
  qr_y_offset : Int
  number_y_offset : Int
deriving DecidableEq, Repr

/-- One drawing operation issued to the `reportlab` canvas. -/
inductive DrawOp where
  | drawImage (path : String) (x y w h : ℚ)
  | setFont (font : String) (size : Int)
  | setFillColorRGB (r g b : ℚ)
  | drawCentredString (x y : ℚ) (text : String)
  | saveCanvas (output_path : String)
deriving DecidableEq, Repr

/-- `PDFGenerator.generate_pdf` (src/pdf_generator.py lines 139-190):
the ordered trace of canvas operations.  Mirrors the source line by
line: background image stretched to the page, title text, QR image,
number text, save. -/
def generate_pdf (output_path name number qr_image_path : String)
    (config : PDFConfig) : List DrawOp :=
  let page_width : ℚ := config.page_size.1
  let page_height : ℚ := config.page_size.2
  let x_center : ℚ := page_width / 2
  let y_position : ℚ := page_height - 100
  let qr_half_size : ℚ := (config.qr_size : ℚ) / 2
  [ .drawImage config.background_image 0 0 page_width page_height,
    .setFont config.title_font config.title_font_size,
    .setFillColorRGB config.title_color.1 config.title_color.2.1 config.title_color.2.2,
    .drawCentredString x_center (y_position - config.title_y_offset) name,
    .drawImage qr_image_path (x_center - qr_half_size)
      (y_position - config.qr_size - config.qr_y_offset)
      (config.qr_size : ℚ) (config.qr_size : ℚ),
    .setFont config.number_font config.number_font_size,
    .setFillColorRGB config.number_color.1 config.number_color.2.1 config.number_color.2.2,
    .drawCentredString x_center
      (y_position - config.qr_size - config.number_y_offset) number,
    .saveCanvas output_path ]

/-! ## Pipeline orchestrator (`process_records`, src/pdf_generator.py lines 208-264)

The CSV reader is an external collaborator (pandas); the input rows are
embedded as the ordered list of `(raw_name, number)` string pairs it
delivers (the source's `str(...)` conversions are identities on
strings).  The `for index, row in df.iterrows()` loop enumerates these
rows with a 0-based index.  The source has no `try`/`except`: an
exception raised while processing a record propagates out of the loop,
which the embedding models by stopping with `err = some e`. -/

/-- Everything recorded about one successfully processed record. -/
structure RecordOutcome where
  rowIndex : Nat
  rawName : String
  number : String
  qrPath : String
  pdfPath : String
  pdfOps : List DrawOp
deriving DecidableEq, Repr

/-- The observable outcome of a `process_records` run: the directory
state, the artifact files written in order, the per-record outcomes, the
printed log lines, and the exception (if one escaped). -/
structure RunResult where
  dirs : DirState
  files : List String
  records : List RecordOutcome
  log : List String
  err : Option QRError
deriving DecidableEq, Repr

/-- The outcome of the loop body (src/pdf_generator.py lines 246-262)
for the row at 0-based index `idx`: the Farsi-processed name is passed
to the PDF as its title, while both artifact paths are built from the
raw name and `index + 1`. -/
def mkOutcome (pc : PDFConfig) (qr_dir pdf_dir : String) (idx : Nat)
    (rawName number : String) : RecordOutcome :=
  let qrPath := pathJoin qr_dir (natStr (idx + 1) ++ "-" ++ rawName ++ ".png")
  let pdfPath := pathJoin pdf_dir (natStr (idx + 1) ++ "-" ++ rawName ++ ".pdf")
  { rowIndex := idx + 1
    rawName := rawName
    number := number
    qrPath := qrPath
    pdfPath := pdfPath
    pdfOps := generate_pdf pdfPath (process_text rawName) number qrPath pc }

/-- The record loop of `process_records` (src/pdf_generator.py lines
246-264).  Each iteration shapes the name, generates the QR image,
writes it, composes the PDF and logs; an error escaping `generate`
aborts the loop.  After the last row the source prints
`All PDFs created successfully!`. -/
def processLoop (qc : QRCodeConfig) (pc : PDFConfig) (qr_dir pdf_dir : String) :
    List (String × String) → Nat → RunResult → RunResult
  | [], _, acc =>
    { acc with log := acc.log ++ ["All PDFs created successfully!"], err := none }
  | (rawName, number) :: rest, idx, acc =>
    match generate qc number with
    | .error e => { acc with err := some e }
    | .ok _ =>
      let out := mkOutcome pc qr_dir pdf_dir idx rawName number
      processLoop qc pc qr_dir pdf_dir rest (idx + 1)
        { acc with
          files := acc.files ++ [out.qrPath, out.pdfPath]
          records := acc.records ++ [out]
          log := acc.log ++ ["PDF generated: " ++ out.pdfPath] }

/-- `process_records` (src/pdf_generator.py lines 208-264): create the
two output directories, then process each row in order. -/
def process_records (rows : List (String × String)) (qr_dir pdf_dir : String)
    (qr_config : QRCodeConfig) (pdf_config : PDFConfig) : RunResult :=
  processLoop qr_config pdf_config qr_dir pdf_dir rows 0
    { dirs := create_directory (create_directory [] qr_dir) pdf_dir
      files := []
      records := []
      log := []
      err := none }

/-! ## Lemmas: text shaping on ASCII input -/

lemma isArabicLetter_ascii {c : Char} (h : c.toNat < 128) :
    isArabicLetter c = false := by
  simp only [isArabicLetter, List.mem_cons, List.not_mem_nil,
    decide_eq_false_iff_not]
  rintro (⟨h1, h2⟩ | h1 | h1 | h1 | h1 | h1 | h1 | f)
  all_goals first | exact f.elim | omega

lemma isRtlChar_ascii {c : Char} (h : c.toNat < 128) :
    isRtlChar c = false := by
  simp only [isRtlChar, decide_eq_false_iff_not]
  rintro (⟨h1, h2⟩ | ⟨h1, h2⟩ | ⟨h1, h2⟩) <;> omega

lemma reshapeAux_ascii : ∀ (l : List Char), (∀ c ∈ l, c.toNat < 128) →
    ∀ b, reshapeAux b l = l := by
  intro l
  induction l with
  | nil => intro _ _; rfl
  | cons c rest ih =>
    intro h b
    have hc : isArabicLetter c = false :=
      isArabicLetter_ascii (h c (List.mem_cons_self c rest))
    have hrest : ∀ x ∈ rest, x.toNat < 128 :=
      fun x hx => h x (List.mem_cons_of_mem c hx)
    simp only [reshapeAux, hc, Bool.false_eq_true, if_false]
    exact congrArg (c :: ·) (ih hrest false)

lemma firstStrong_ascii : ∀ (l : List Char), (∀ c ∈ l, c.toNat < 128) →
    firstStrong l = none ∨ firstStrong l = some false := by
  intro l
  induction l with
  | nil => intro _; left; rfl
  | cons c rest ih =>
    intro h
    have hc : isRtlChar c = false := isRtlChar_ascii (h c (List.mem_cons_self c rest))
    have hrest : ∀ x ∈ rest, x.toNat < 128 :=
      fun x hx => h x (List.mem_cons_of_mem c hx)
    simp only [firstStrong, hc, Bool.false_eq_true, if_false]
    by_cases hs : isStrongLtr c = true
    · right; simp [hs]
    · simp only [hs, if_false]
      exact ih hrest

lemma baseRtl_ascii {l : List Char} (h : ∀ c ∈ l, c.toNat < 128) :
    baseRtl l = false := by
  unfold baseRtl
  rcases firstStrong_ascii l h with h' | h' <;> simp [h']

lemma revRunsAux_of_none : ∀ (p : Char → Bool) (l : List Char),
    (∀ c ∈ l, p c = false) → revRunsAux p [] l = l := by
  intro p l
  induction l with
  | nil => intro _; rfl
  | cons c rest ih =>
    intro h
    have hc : p c = false := h c (List.mem_cons_self c rest)
    have hrest : ∀ x ∈ rest, p x = false :=
      fun x hx => h x (List.mem_cons_of_mem c hx)
    simp only [revRunsAux, hc, Bool.false_eq_true, if_false, List.nil_append]
    exact congrArg (c :: ·) (ih hrest)

lemma get_display_ascii {s : String} (h : ∀ c ∈ s.data, c.toNat < 128) :
    get_display s = s := by
  unfold get_display
  rw [baseRtl_ascii h]
  simp only [Bool.false_eq_true, if_false]
  rw [revRunsBy, revRunsAux_of_none _ _ (fun c hc => isRtlChar_ascii (h c hc))]

lemma reshape_ascii {s : String} (h : ∀ c ∈ s.data, c.toNat < 128) :
    reshape s = s := by
  unfold reshape
  rw [reshapeAux_ascii s.data h false]

/-- C2: for every string of ASCII (non-Arabic-script) characters, the
Text Shaper `FarsiTextProcessor.process_text` returns its input
unchanged, and both of its steps — the reshaping and the bidirectional
reordering — are identities on such purely left-to-right text. -/
theorem process_text_ascii_identity (s : String)
    (h : ∀ c ∈ s.data, c.toNat < 128) :
    process_text s = s ∧ reshape s = s ∧ get_display s = s := by
  have hr : reshape s = s := reshape_ascii h
  have hd : get_display s = s := get_display_ascii h
  refine ⟨?_, hr, hd⟩
  unfold process_text
  rw [hr, hd]

/-- Witness for C2 at the concrete ASCII input `"Ali"`. -/
theorem process_text_ascii_identity_witness : process_text "Ali" = "Ali" :=
  (process_text_ascii_identity "Ali" (by decide)).1

/-! ## C3: determinism of the QR encoder -/

/-- C3: the QR Encoder `QRCodeGenerator.generate` is deterministic —
two calls with identical `(data, config)` pairs return the same result,
and in particular any two rasters so produced are byte-identical
(same dimensions, same colour at every pixel). -/
theorem generate_deterministic (data₁ data₂ : String)
    (config₁ config₂ : QRCodeConfig)
    (hd : data₁ = data₂) (hc : config₁ = config₂) :
    generate config₁ data₁ = generate config₂ data₂ ∧
    ∀ r₁ r₂, generate config₁ data₁ = .ok r₁ → generate config₂ data₂ = .ok r₂ →
      r₁.width = r₂.width ∧ r₁.height = r₂.height ∧
      ∀ x y, r₁.pixelAt x y = r₂.pixelAt x y := by
  subst hd
  subst hc
  refine ⟨rfl, ?_⟩
  intro r₁ r₂ h₁ h₂
  rw [h₁] at h₂
  injection h₂ with h₂
  subst h₂
  exact ⟨rfl, rfl, fun _ _ => rfl⟩

/-- A raster placeholder used to name concrete `generate` outputs. -/
def rasterDefault : Raster := ⟨0, 0, fun _ _ => ""⟩

def w3cfg : QRCodeConfig := ⟨1, 1, 1, 4, "black", "white"⟩

/-- The raster produced for data `"7"` under `w3cfg`. -/
def w3raster : Raster := (generate w3cfg "7").toOption.getD rasterDefault

/-- Witness for C3 at the concrete input `("7", w3cfg)`. -/
theorem generate_deterministic_witness : w3raster.width = w3raster.width :=
  ((generate_deterministic "7" "7" w3cfg w3cfg rfl rfl).2
    w3raster w3raster rfl rfl).1

/-! ## C4: auto-expanding version choice and the capacity failure -/

lemma findFitAux_some_spec (ec : Nat) (m : Mode) (db : Nat) :
    ∀ fuel v w, findFitAux ec m db fuel v = some w →
      v ≤ w ∧ w ≤ 40 ∧ fitsVersion ec m db w = true ∧
      ∀ u, v ≤ u → u < w → fitsVersion ec m db u = false := by
  intro fuel
  induction fuel with
  | zero =>
    intro v w h
    exact absurd h (by simp [findFitAux])
  | succ fuel ih =>
    intro v w h
    rw [findFitAux] at h
    by_cases h40 : 40 < v
    · rw [if_pos h40] at h
      exact absurd h (by simp)
    · rw [if_neg h40] at h
      by_cases hf : fitsVersion ec m db v = true
      · rw [if_pos hf] at h
        injection h with h
        subst h
        exact ⟨Nat.le_refl _, by omega, hf, fun u h1 h2 => absurd h1 (by omega)⟩
      · rw [if_neg hf] at h
        obtain ⟨h1, h2, h3, h4⟩ := ih (v + 1) w h
        refine ⟨by omega, h2, h3, ?_⟩
        intro u hu1 hu2
        by_cases hu : u = v
        · subst hu
          exact Bool.eq_false_iff.mpr hf
        · exact h4 u (by omega) hu2

lemma findFitAux_none_spec (ec : Nat) (m : Mode) (db : Nat) :
    ∀ fuel v, 41 ≤ fuel + v → findFitAux ec m db fuel v = none →
      ∀ u, v ≤ u → u ≤ 40 → fitsVersion ec m db u = false := by
  intro fuel
  induction fuel with
  | zero =>
    intro v hfv _ u h1 h2
    omega
  | succ fuel ih =>
    intro v hfv h u h1 h2
    rw [findFitAux] at h
    by_cases h40 : 40 < v
    · omega
    · rw [if_neg h40] at h
      by_cases hf : fitsVersion ec m db v = true
      · rw [if_pos hf] at h
        exact absurd h (by simp)
      · rw [if_neg hf] at h
        by_cases hu : u = v
        · subst hu
          exact Bool.eq_false_iff.mpr hf
        · exact ih (v + 1) (by omega) h u (by omega) h2

/-- C4: for every data string and valid configuration,
`QRCodeGenerator.generate` selects the smallest QR version `≥
config.version` whose capacity at the configured error-correction level
holds the full data (auto-expand); when the data exceeds the capacity of
every version up to the maximum version 40 at that level it fails with
the capacity error (`EncodingCapacityError`), never truncating the data
and never reporting success. -/
theorem generate_auto_expand (data : String) (config : QRCodeConfig)
    (hv1 : 1 ≤ config.version) (hv40 : config.version ≤ 40)
    (hec : config.error_correction < 4) (hbs : 1 ≤ config.box_size) :
    (∀ v, bestVersion config data = some v →
      config.version ≤ v ∧ v ≤ 40 ∧
      fitsVersion config.error_correction (selectMode data)
        (dataBits (selectMode data) data) v = true ∧
      (∀ u, config.version ≤ u → u < v →
        fitsVersion config.error_correction (selectMode data)
          (dataBits (selectMode data) data) u = false) ∧
      generate config data = .ok (render config data v)) ∧
    (bestVersion config data = none →
      (∀ u, config.version ≤ u → u ≤ 40 →
        fitsVersion config.error_correction (selectMode data)
          (dataBits (selectMode data) data) u = false) ∧
      generate config data = .error .encodingCapacityError) := by
  constructor
  · intro v hsome
    have hspec := findFitAux_some_spec config.error_correction (selectMode data)
      (dataBits (selectMode data) data) 41 config.version v hsome
    refine ⟨hspec.1, hspec.2.1, hspec.2.2.1, hspec.2.2.2, ?_⟩
    unfold generate
    rw [if_neg (by omega), if_neg (by omega), if_neg (by omega), hsome]
  · intro hnone
    refine ⟨findFitAux_none_spec config.error_correction (selectMode data)
      (dataBits (selectMode data) data) 41 config.version (by omega) hnone, ?_⟩
    unfold generate
    rw [if_neg (by omega), if_neg (by omega), if_neg (by omega), hnone]

def w4cfg : QRCodeConfig := ⟨1, 1, 2, 4, "black", "white"⟩

/-- Witness for C4 at the concrete input `("HELLO", w4cfg)`: version 1
is chosen and encoding succeeds. -/
theorem generate_auto_expand_witness :
    generate w4cfg "HELLO" = .ok (render w4cfg "HELLO" 1) :=
  ((generate_auto_expand "HELLO" w4cfg (by decide) (by decide) (by decide)
    (by decide)).1 1 rfl).2.2.2.2

/-! ## C5: raster geometry -/

lemma generate_ok_render {data : String} {config : QRCodeConfig} {v : Nat}
    {r : Raster} (hbv : bestVersion config data = some v)
    (hok : generate config data = .ok r) : r = render config data v := by
  unfold generate at hok
  split at hok
  · exact absurd hok (by simp)
  · split at hok
    · exact absurd hok (by simp)
    · split at hok
      · exact absurd hok (by simp)
      · rw [hbv] at hok
        injection hok with hok
        exact hok.symm

/-- C5: every raster produced by a successful `QRCodeGenerator.generate`
is square, with `(chosen_version * 4 + 17)` modules per side rendered as
`box_size × box_size` aligned pixel blocks, a quiet zone `border`
modules wide filled with `back_color`, and every pixel coloured either
`fill_color` or `back_color`; hence the pixel side length is
`(chosen_version * 4 + 17 + 2 * border) * box_size`. -/
theorem generate_raster_geometry (data : String) (config : QRCodeConfig)
    (v : Nat) (r : Raster)
    (hbv : bestVersion config data = some v)
    (hok : generate config data = .ok r) :
    r.width = (v * 4 + 17 + 2 * config.border) * config.box_size ∧
    r.height = r.width ∧
    (∀ x y, r.pixelAt x y = config.fill_color ∨
      r.pixelAt x y = config.back_color) ∧
    (∀ x y, (x / config.box_size < config.border ∨
             y / config.box_size < config.border ∨
             config.border + (v * 4 + 17) ≤ x / config.box_size ∨
             config.border + (v * 4 + 17) ≤ y / config.box_size) →
      r.pixelAt x y = config.back_color) ∧
    (∀ x₁ y₁ x₂ y₂, x₁ / config.box_size = x₂ / config.box_size →
      y₁ / config.box_size = y₂ / config.box_size →
      r.pixelAt x₁ y₁ = r.pixelAt x₂ y₂) := by
  have hr := generate_ok_render hbv hok
  subst hr
  refine ⟨?_, ?_, ?_, ?_, ?_⟩
  · show (modulesCount v + 2 * config.border) * config.box_size = _
    unfold modulesCount
    ring
  · rfl
  · intro x y
    dsimp only [render]
    split
    · split
      · left; rfl
      · right; rfl
    · right; rfl
  · intro x y hq
    dsimp only [render]
    rw [if_neg]
    unfold modulesCount
    omega
  · intro x₁ y₁ x₂ y₂ hx hy
    dsimp only [render]
    rw [hx, hy]

def w5cfg : QRCodeConfig := ⟨1, 1, 1, 4, "black", "white"⟩

/-- The raster produced for data `"HI"` under `w5cfg`. -/
def w5raster : Raster := (generate w5cfg "HI").toOption.getD rasterDefault

/-- Witness for C5 at the concrete input `("HI", w5cfg)`: the pixel side
length follows the `(version * 4 + 17 + 2 * border) * box_size` formula. -/
theorem generate_raster_geometry_witness :
    w5raster.width = (1 * 4 + 17 + 2 * w5cfg.border) * w5cfg.box_size :=
  (generate_raster_geometry "HI" w5cfg 1 w5raster rfl rfl).1

/-! ## C6: page layout geometry -/

/-- C6: every page composed by `PDFGenerator.generate_pdf` with page
size `(page_width, page_height)` is laid out from the anchor
`x_center = page_width / 2`, `y_anchor = page_height - 100` (the
100-unit top margin is a fixed constant): the title is drawn centred at
`x_center` at height `y_anchor - title_y_offset`, the QR image is a
`qr_size × qr_size` square with left edge `x_center - qr_size / 2` at
height `y_anchor - qr_size - qr_y_offset`, and the number text is drawn
centred at `x_center` at height `y_anchor - qr_size - number_y_offset`. -/
theorem generate_pdf_layout (output_path name number qr_image_path : String)
    (config : PDFConfig) :
    generate_pdf output_path name number qr_image_path config =
      [ .drawImage config.background_image 0 0
          (config.page_size.1 : ℚ) (config.page_size.2 : ℚ),
        .setFont config.title_font config.title_font_size,
        .setFillColorRGB config.title_color.1 config.title_color.2.1
          config.title_color.2.2,
        .drawCentredString ((config.page_size.1 : ℚ) / 2)
          ((config.page_size.2 : ℚ) - 100 - (config.title_y_offset : ℚ)) name,
        .drawImage qr_image_path
          ((config.page_size.1 : ℚ) / 2 - (config.qr_size : ℚ) / 2)
          ((config.page_size.2 : ℚ) - 100 - (config.qr_size : ℚ) -
            (config.qr_y_offset : ℚ))
          (config.qr_size : ℚ) (config.qr_size : ℚ),
        .setFont config.number_font config.number_font_size,
        .setFillColorRGB config.number_color.1 config.number_color.2.1
          config.number_color.2.2,
        .drawCentredString ((config.page_size.1 : ℚ) / 2)
          ((config.page_size.2 : ℚ) - 100 - (config.qr_size : ℚ) -
            (config.number_y_offset : ℚ)) number,
        .saveCanvas output_path ] := rfl

/-! ## C9: the page background

The claim states the background is optional and that composition
proceeds without a background when it is not set.  In the source
(src/pdf_generator.py lines 27-42 and 159-161) `background_image` is a
required `PDFConfig` field and `generate_pdf` unconditionally draws it
before anything else; there is no background-less path. -/

def c9cfg : PDFConfig :=
  ⟨(225, 400), "", "Vazir-Bold", 20, (1, 1, 1),
   "Helvetica", 14, (0, 0, 0), 150, 40, 63, 70⟩

/-- C9 counterexample: with the background field at its nearest "unset"
value (the empty string), composition does not proceed without a
background — the very first canvas operation is still a draw of the
(empty-path) background stretched over the whole page, refuting
"if background_asset is not set, composition proceeds without a
background". -/
theorem generate_pdf_background_cex :
    (generate_pdf "out.pdf" "N" "1" "qr.png" c9cfg).head? =
      some (DrawOp.drawImage "" 0 0 225 400) := by decide

/-- C9 (amended): `background_image` is a required configuration field,
not an optional one; the Page Composer always draws it stretched to
fill the entire page as its first operation, before the title text
(operation 3), the QR image (operation 4) and the number text
(operation 7), so every later draw occludes it. -/
theorem generate_pdf_background_always_drawn
    (output_path name number qr_image_path : String) (config : PDFConfig) :
    (generate_pdf output_path name number qr_image_path config).head? =
      some (.drawImage config.background_image 0 0
        (config.page_size.1 : ℚ) (config.page_size.2 : ℚ)) ∧
    (generate_pdf output_path name number qr_image_path config).get? 3 =
      some (.drawCentredString ((config.page_size.1 : ℚ) / 2)
        ((config.page_size.2 : ℚ) - 100 - (config.title_y_offset : ℚ)) name) ∧
    (generate_pdf output_path name number qr_image_path config).get? 4 =
      some (.drawImage qr_image_path
        ((config.page_size.1 : ℚ) / 2 - (config.qr_size : ℚ) / 2)
        ((config.page_size.2 : ℚ) - 100 - (config.qr_size : ℚ) -
          (config.qr_y_offset : ℚ))
        (config.qr_size : ℚ) (config.qr_size : ℚ)) ∧
    (generate_pdf output_path name number qr_image_path config).get? 7 =
      some (.drawCentredString ((config.page_size.1 : ℚ) / 2)
        ((config.page_size.2 : ℚ) - 100 - (config.qr_size : ℚ) -
          (config.number_y_offset : ℚ)) number) :=
  ⟨rfl, rfl, rfl, rfl⟩

/-! ## Decimal naming: `natStr` is injective and made of digit characters -/

/-- Big-endian decimal digit list read back as a number. -/
def ofDigitsBE (l : List Nat) : Nat := l.foldl (fun a d => 10 * a + d) 0

lemma decDigitsAux_lt10 : ∀ fuel n, n ≤ fuel → ∀ d ∈ decDigitsAux fuel n, d < 10 := by
  intro fuel
  induction fuel with
  | zero =>
    intro n hn d hd
    have : n = 0 := by omega
    subst this
    simp only [decDigitsAux, List.mem_singleton] at hd
    omega
  | succ fuel ih =>
    intro n hn d hd
    rw [decDigitsAux] at hd
    by_cases h10 : n < 10
    · rw [if_pos h10] at hd
      simp only [List.mem_singleton] at hd
      omega
    · rw [if_neg h10] at hd
      rcases List.mem_append.mp hd with hd | hd
      · exact ih (n / 10) (by omega) d hd
      · simp only [List.mem_singleton] at hd
        omega

lemma ofDigitsBE_decDigitsAux : ∀ fuel n, n ≤ fuel →
    ofDigitsBE (decDigitsAux fuel n) = n := by
  intro fuel
  induction fuel with
  | zero =>
    intro n hn
    have : n = 0 := by omega
    subst this
    rfl
  | succ fuel ih =>
    intro n hn
    rw [decDigitsAux]
    by_cases h10 : n < 10
    · rw [if_pos h10]
      simp [ofDigitsBE]
    · rw [if_neg h10]
      unfold ofDigitsBE
      rw [List.foldl_append]
      have := ih (n / 10) (by omega)
      unfold ofDigitsBE at this
      rw [this]
      simp only [List.foldl_cons, List.foldl_nil]
      omega

lemma decDigits_lt10 {n : Nat} : ∀ d ∈ decDigits n, d < 10 :=
  decDigitsAux_lt10 n n (Nat.le_refl n)

lemma ofDigitsBE_decDigits (n : Nat) : ofDigitsBE (decDigits n) = n :=
  ofDigitsBE_decDigitsAux n n (Nat.le_refl n)

lemma decDigits_inj {m n : Nat} (h : decDigits m = decDigits n) : m = n := by
  rw [← ofDigitsBE_decDigits m, ← ofDigitsBE_decDigits n, h]

lemma digitChar_isDigit : ∀ d, d < 10 → (Nat.digitChar d).isDigit = true := by
  decide

lemma digitChar_ne_slash : ∀ d, d < 10 → Nat.digitChar d ≠ '/' := by decide

lemma digitChar_inj : ∀ a, a < 10 → ∀ b, b < 10 →
    Nat.digitChar a = Nat.digitChar b → a = b := by decide

lemma map_digitChar_inj : ∀ (l₁ l₂ : List Nat),
    (∀ d ∈ l₁, d < 10) → (∀ d ∈ l₂, d < 10) →
    l₁.map Nat.digitChar = l₂.map Nat.digitChar → l₁ = l₂ := by
  intro l₁
  induction l₁ with
  | nil =>
    intro l₂ _ _ h
    cases l₂ with
    | nil => rfl
    | cons b t => exact absurd h (by simp)
  | cons a t ih =>
    intro l₂ h₁ h₂ h
    cases l₂ with
    | nil => exact absurd h (by simp)
    | cons b t' =>
      simp only [List.map_cons, List.cons.injEq] at h
      have ha : a = b := digitChar_inj a (h₁ a (List.mem_cons_self a t)) b
        (h₂ b (List.mem_cons_self b t')) h.1
      have ht : t = t' := ih t' (fun d hd => h₁ d (List.mem_cons_of_mem a hd))
        (fun d hd => h₂ d (List.mem_cons_of_mem b hd)) h.2
      rw [ha, ht]

lemma natStr_inj {m n : Nat} (h : natStr m = natStr n) : m = n := by
  unfold natStr at h
  have hd : (decDigits m).map Nat.digitChar = (decDigits n).map Nat.digitChar :=
    congrArg String.data h
  exact decDigits_inj (map_digitChar_inj _ _
    (fun d hd' => decDigits_lt10 d hd') (fun d hd' => decDigits_lt10 d hd') hd)

lemma natStr_all_digit {n : Nat} : ∀ c ∈ (natStr n).data, c.isDigit = true := by
  intro c hc
  unfold natStr at hc
  simp only [List.mem_map] at hc
  obtain ⟨d, hd, rfl⟩ := hc
  exact digitChar_isDigit d (decDigits_lt10 d hd)

lemma natStr_no_slash {n : Nat} : ∀ c ∈ (natStr n).data, c ≠ '/' := by
  intro c hc
  unfold natStr at hc
  simp only [List.mem_map] at hc
  obtain ⟨d, hd, rfl⟩ := hc
  exact digitChar_ne_slash d (decDigits_lt10 d hd)

lemma takeWhile_append_stop {p : Char → Bool} :
    ∀ (xs : List Char) (y : Char) (zs : List Char),
    (∀ x ∈ xs, p x = true) → p y = false →
    (xs ++ y :: zs).takeWhile p = xs := by
  intro xs
  induction xs with
  | nil =>
    intro y zs _ hy
    simp [List.takeWhile_cons, hy]
  | cons x t ih =>
    intro y zs hall hy
    have hx : p x = true := hall x (List.mem_cons_self x t)
    simp only [List.cons_append, List.takeWhile_cons_of_pos hx]
    rw [ih y zs (fun a ha => hall a (List.mem_cons_of_mem x ha)) hy]

/-- Two artifact file names built from the same display name and
extension but different 1-based indices are different. -/
lemma artifactName_inj (i j : Nat) (nm ext : String)
    (h : natStr i ++ "-" ++ nm ++ ext = natStr j ++ "-" ++ nm ++ ext) :
    i = j := by
  have hd := congrArg String.data h
  simp only [String.data_append, List.append_assoc, List.cons_append,
    List.nil_append] at hd
  have h₁ := congrArg (List.takeWhile Char.isDigit) hd
  rw [takeWhile_append_stop _ _ _ (fun x hx => natStr_all_digit x hx) (by decide),
      takeWhile_append_stop _ _ _ (fun x hx => natStr_all_digit x hx) (by decide)] at h₁
  exact natStr_inj (String.ext h₁)

/-- `pathJoin` under a fixed directory is injective in the file name. -/
lemma pathJoin_cancel {d a b : String} (h : pathJoin d a = pathJoin d b) :
    a = b := by
  unfold pathJoin at h
  have hd := congrArg String.data h
  simp only [String.data_append, List.append_assoc] at hd
  rw [← List.append_assoc, ← List.append_assoc] at hd
  exact String.ext (List.append_cancel_left hd)

/-! ## Loop characterisation lemmas for `process_records` -/

/-- The record outcomes produced for `rows` starting at 0-based index
`idx`, assuming every row encodes successfully. -/
def buildRecords (pc : PDFConfig) (qr_dir pdf_dir : String) :
    Nat → List (String × String) → List RecordOutcome
  | _, [] => []
  | idx, (n, num) :: rest =>
    mkOutcome pc qr_dir pdf_dir idx n num ::
      buildRecords pc qr_dir pdf_dir (idx + 1) rest

lemma buildRecords_length (pc : PDFConfig) (qr_dir pdf_dir : String) :
    ∀ (rows : List (String × String)) (idx : Nat),
    (buildRecords pc qr_dir pdf_dir idx rows).length = rows.length := by
  intro rows
  induction rows with
  | nil => intro idx; rfl
  | cons r rest ih =>
    intro idx
    cases r with
    | mk n num => simp [buildRecords, ih (idx + 1)]

lemma buildRecords_get? (pc : PDFConfig) (qr_dir pdf_dir : String) :
    ∀ (rows : List (String × String)) (idx k : Nat) (hk : k < rows.length),
    (buildRecords pc qr_dir pdf_dir idx rows).get? k =
      some (mkOutcome pc qr_dir pdf_dir (idx + k)
        (rows.get ⟨k, hk⟩).1 (rows.get ⟨k, hk⟩).2) := by
  intro rows
  induction rows with
  | nil =>
    intro idx k hk
    exact absurd hk (by simp)
  | cons r rest ih =>
    intro idx k hk
    cases r with
    | mk n num =>
      cases k with
      | zero => simp [buildRecords]
      | succ k =>
        have hk' : k < rest.length := by simpa using hk
        rw [buildRecords]
        show (buildRecords pc qr_dir pdf_dir (idx + 1) rest).get? k = _
        rw [ih (idx + 1) k hk']
        have : idx + 1 + k = idx + (k + 1) := by omega
        rw [this]
        rfl

lemma processLoop_dirs (qc : QRCodeConfig) (pc : PDFConfig)
    (qr_dir pdf_dir : String) :
    ∀ (rows : List (String × String)) (idx : Nat) (acc : RunResult),
    (processLoop qc pc qr_dir pdf_dir rows idx acc).dirs = acc.dirs := by
  intro rows
  induction rows with
  | nil => intro idx acc; rfl
  | cons r rest ih =>
    intro idx acc
    cases r with
    | mk n num =>
      rw [processLoop]
      cases hg : generate qc num with
      | error e => rfl
      | ok img => exact ih (idx + 1) _

lemma processLoop_ok_spec (qc : QRCodeConfig) (pc : PDFConfig)
    (qr_dir pdf_dir : String) :
    ∀ (rows : List (String × String)) (idx : Nat) (acc : RunResult),
    (processLoop qc pc qr_dir pdf_dir rows idx acc).err = none →
    (processLoop qc pc qr_dir pdf_dir rows idx acc).records =
      acc.records ++ buildRecords pc qr_dir pdf_dir idx rows ∧
    (processLoop qc pc qr_dir pdf_dir rows idx acc).files =
      acc.files ++
        ((buildRecords pc qr_dir pdf_dir idx rows).map
          (fun r => [r.qrPath, r.pdfPath])).flatten ∧
    (processLoop qc pc qr_dir pdf_dir rows idx acc).log =
      acc.log ++
        (buildRecords pc qr_dir pdf_dir idx rows).map
          (fun r => "PDF generated: " ++ r.pdfPath) ++
        ["All PDFs created successfully!"] := by
  intro rows
  induction rows with
  | nil =>
    intro idx acc _
    simp [processLoop, buildRecords]
  | cons r rest ih =>
    intro idx acc herr
    cases r with
    | mk n num =>
      rw [processLoop] at herr ⊢
      cases hg : generate qc num with
      | error e =>
        rw [hg] at herr
        dsimp only at herr
        exact Option.noConfusion herr
      | ok img =>
        rw [hg] at herr
        dsimp only at herr ⊢
        obtain ⟨h₁, h₂, h₃⟩ := ih (idx + 1) _ herr
        refine ⟨?_, ?_, ?_⟩
        · rw [h₁]
          simp [buildRecords, List.append_assoc]
        · rw [h₂]
          simp [buildRecords, List.append_assoc]
        · rw [h₃]
          simp [buildRecords, List.append_assoc]

/-- C7: when a `process_records` batch completes without an escaped
failure, each of the `rows.length` successfully processed rows yields
exactly one QR image path `qr_dir/{row_index}-{display_name}.png` and
one PDF path `pdf_dir/{row_index}-{display_name}.pdf`, with `row_index`
1-based and assigned sequentially in row-source order, the written
files being precisely those pairs; and two different row indices give
two distinct, non-colliding artifact pairs even for identical display
names. -/
theorem process_records_artifact_naming (rows : List (String × String))
    (qr_dir pdf_dir : String) (qc : QRCodeConfig) (pc : PDFConfig)
    (hok : (process_records rows qr_dir pdf_dir qc pc).err = none) :
    (process_records rows qr_dir pdf_dir qc pc).records.length = rows.length ∧
    (∀ k (hk : k < rows.length),
      (process_records rows qr_dir pdf_dir qc pc).records.get? k =
        some (mkOutcome pc qr_dir pdf_dir k
          (rows.get ⟨k, hk⟩).1 (rows.get ⟨k, hk⟩).2)) ∧
    ((process_records rows qr_dir pdf_dir qc pc).files =
      ((process_records rows qr_dir pdf_dir qc pc).records.map
        (fun r => [r.qrPath, r.pdfPath])).flatten) ∧
    (∀ k nm num,
      (mkOutcome pc qr_dir pdf_dir k nm num).rowIndex = k + 1 ∧
      (mkOutcome pc qr_dir pdf_dir k nm num).qrPath =
        pathJoin qr_dir (natStr (k + 1) ++ "-" ++ nm ++ ".png") ∧
      (mkOutcome pc qr_dir pdf_dir k nm num).pdfPath =
        pathJoin pdf_dir (natStr (k + 1) ++ "-" ++ nm ++ ".pdf")) ∧
    (∀ i j nm, i ≠ j →
      pathJoin qr_dir (natStr (i + 1) ++ "-" ++ nm ++ ".png") ≠
        pathJoin qr_dir (natStr (j + 1) ++ "-" ++ nm ++ ".png") ∧
      pathJoin pdf_dir (natStr (i + 1) ++ "-" ++ nm ++ ".pdf") ≠
        pathJoin pdf_dir (natStr (j + 1) ++ "-" ++ nm ++ ".pdf")) := by
  obtain ⟨h₁, h₂, _⟩ := processLoop_ok_spec qc pc qr_dir pdf_dir rows 0 _ hok
  have hrec : (process_records rows qr_dir pdf_dir qc pc).records =
      buildRecords pc qr_dir pdf_dir 0 rows := by
    unfold process_records
    rw [h₁]
    simp
  have hfiles : (process_records rows qr_dir pdf_dir qc pc).files =
      ((buildRecords pc qr_dir pdf_dir 0 rows).map
        (fun r => [r.qrPath, r.pdfPath])).flatten := by
    unfold process_records
    rw [h₂]
    simp
  refine ⟨?_, ?_, ?_, ?_, ?_⟩
  · rw [hrec, buildRecords_length]
  · intro k hk
    rw [hrec, buildRecords_get? pc qr_dir pdf_dir rows 0 k hk]
    simp
  · rw [hfiles, hrec]
  · intro k nm num
    exact ⟨rfl, rfl, rfl⟩
  · intro i j nm hij
    constructor
    · intro h
      have := artifactName_inj (i + 1) (j + 1) nm ".png" (pathJoin_cancel h)
      omega
    · intro h
      have := artifactName_inj (i + 1) (j + 1) nm ".pdf" (pathJoin_cancel h)
      omega

/-- A QR configuration used by concrete pipeline runs in witnesses. -/
def wqcfg : QRCodeConfig := ⟨1, 1, 1, 4, "black", "white"⟩

/-- A PDF configuration (the one from `main`, src/pdf_generator.py lines
286-299) used by concrete pipeline runs in witnesses. -/
def wpcfg : PDFConfig :=
  ⟨(225, 400), "background.jpg", "Vazir-Bold", 20, (1, 1, 1),
   "Helvetica", 14, (0, 0, 0), 150, 40, 63, 70⟩

def wrows2 : List (String × String) := [("Name", "1"), ("Name", "2")]

/-- Witness for C7 at a concrete batch of two rows with the same display
name: both rows are processed and their QR paths do not collide. -/
theorem process_records_artifact_naming_witness :
    (process_records wrows2 "QR_codes" "PDF_files" wqcfg wpcfg).records.length = 2 ∧
    pathJoin "QR_codes" (natStr 1 ++ "-" ++ "Name" ++ ".png") ≠
      pathJoin "QR_codes" (natStr 2 ++ "-" ++ "Name" ++ ".png") :=
  ⟨(process_records_artifact_naming wrows2 "QR_codes" "PDF_files" wqcfg wpcfg rfl).1,
   ((process_records_artifact_naming wrows2 "QR_codes" "PDF_files" wqcfg wpcfg
      rfl).2.2.2.2 0 1 "Name" (by decide)).1⟩

/-! ## C1: a per-record failure and the batch

The claim states that a failure on one record is caught at the
orchestrator boundary, logged, and that the batch continues, with final
success/failure counts.  The source loop (src/pdf_generator.py lines
246-264) contains no `try`/`except`: an exception thrown while
processing a record propagates and aborts the batch, the remaining rows
are never processed, and the only output on the success path is the
fixed message `All PDFs created successfully!` — no counts. -/

lemma processLoop_failure_spec (qc : QRCodeConfig) (pc : PDFConfig)
    (qr_dir pdf_dir : String) :
    ∀ (pre : List (String × String)) (idx : Nat) (acc : RunResult)
      (nm num : String) (post : List (String × String)) (e : QRError),
    generate qc num = .error e →
    (∀ r ∈ pre, (generate qc r.2).isOk = true) →
    (processLoop qc pc qr_dir pdf_dir (pre ++ (nm, num) :: post) idx acc).err = some e ∧
    (processLoop qc pc qr_dir pdf_dir (pre ++ (nm, num) :: post) idx acc).records =
      acc.records ++ buildRecords pc qr_dir pdf_dir idx pre ∧
    (processLoop qc pc qr_dir pdf_dir (pre ++ (nm, num) :: post) idx acc).log =
      acc.log ++ (buildRecords pc qr_dir pdf_dir idx pre).map
        (fun r => "PDF generated: " ++ r.pdfPath) := by
  intro pre
  induction pre with
  | nil =>
    intro idx acc nm num post e hfail _
    simp only [List.nil_append]
    rw [processLoop, hfail]
    dsimp only
    exact ⟨rfl, by simp [buildRecords], by simp [buildRecords]⟩
  | cons r rest ih =>
    intro idx acc nm num post e hfail hpre
    cases r with
    | mk n₀ num₀ =>
      have hok₀ : (generate qc num₀).isOk = true :=
        hpre (n₀, num₀) (List.mem_cons_self _ _)
      obtain ⟨img, hg⟩ : ∃ img, generate qc num₀ = .ok img := by
        cases hgen : generate qc num₀ with
        | error e₀ =>
          rw [hgen] at hok₀
          exact Bool.noConfusion hok₀
        | ok i => exact ⟨i, rfl⟩
      simp only [List.cons_append]
      rw [processLoop, hg]
      dsimp only
      obtain ⟨h₁, h₂, h₃⟩ := ih (idx + 1) _ nm num post e hfail
        (fun r hr => hpre r (List.mem_cons_of_mem _ hr))
      refine ⟨h₁, ?_, ?_⟩
      · rw [h₂]
        simp [buildRecords, List.append_assoc]
      · rw [h₃]
        simp [buildRecords, List.append_assoc]

/-- C1 (amended): a failure while processing one record is not caught
anywhere — it escapes `process_records` and aborts the batch.  Only the
records before the failing row are processed (the rows after it are
never touched, whatever they are), no failure is logged, and no
succeeded/failed counts are reported: the log holds exactly the
per-success lines of the records processed before the failure. -/
theorem process_records_failure_aborts (pre post : List (String × String))
    (nm num qr_dir pdf_dir : String) (qc : QRCodeConfig) (pc : PDFConfig)
    (e : QRError)
    (hfail : generate qc num = .error e)
    (hpre : ∀ r ∈ pre, (generate qc r.2).isOk = true) :
    (process_records (pre ++ (nm, num) :: post) qr_dir pdf_dir qc pc).err = some e ∧
    (process_records (pre ++ (nm, num) :: post) qr_dir pdf_dir qc pc).records.length =
      pre.length ∧
    (process_records (pre ++ (nm, num) :: post) qr_dir pdf_dir qc pc).log =
      (process_records (pre ++ (nm, num) :: post) qr_dir pdf_dir qc pc).records.map
        (fun r => "PDF generated: " ++ r.pdfPath) := by
  obtain ⟨h₁, h₂, h₃⟩ := processLoop_failure_spec qc pc qr_dir pdf_dir pre 0 _
    nm num post e hfail hpre
  refine ⟨?_, ?_, ?_⟩
  · unfold process_records
    exact h₁
  · unfold process_records
    rw [h₂]
    simp [buildRecords_length]
  · unfold process_records
    rw [h₂, h₃]
    simp

/-- A 1274-character identifier: one character beyond the byte-mode
capacity (1273) of version 40 at error-correction level H. -/
def cxLong : String := String.mk (List.replicate 1274 'a')

def cxRows : List (String × String) := [("A", "1"), ("B", cxLong), ("C", "2")]

/-- The configuration of the failing batch: error-correction level H
(`qrcode.constants.ERROR_CORRECT_H = 2`). -/
def cxQc : QRCodeConfig := ⟨1, 2, 1, 4, "black", "white"⟩

set_option maxRecDepth 40000 in
/-- C1 counterexample: in a concrete batch of three rows whose middle
row has an identifier beyond the QR capacity, the two processable rows
do NOT both get processed (only the one before the failure does), so a
failure on one record does abort the batch, contrary to the claim; the
third row's identifier on its own encodes fine. -/
theorem process_records_failure_cex :
    ¬ ((process_records cxRows "QR_codes" "PDF_files" cxQc wpcfg).records.length = 2) ∧
    (generate cxQc "2").isOk = true := by decide

set_option maxRecDepth 40000 in
/-- Witness for C1's amended theorem at the concrete failing batch. -/
theorem process_records_failure_aborts_witness :
    (process_records cxRows "QR_codes" "PDF_files" cxQc wpcfg).err =
      some QRError.encodingCapacityError :=
  (process_records_failure_aborts [("A", "1")] [("C", "2")] "B" cxLong
    "QR_codes" "PDF_files" cxQc wpcfg QRError.encodingCapacityError
    rfl (by decide)).1

/-! ## C8 and C10: membership form of the loop characterisation -/

lemma processLoop_records_mem (qc : QRCodeConfig) (pc : PDFConfig)
    (qr_dir pdf_dir : String) :
    ∀ (rows : List (String × String)) (idx : Nat) (acc : RunResult)
      (r : RecordOutcome),
    r ∈ (processLoop qc pc qr_dir pdf_dir rows idx acc).records →
    r ∈ acc.records ∨ ∃ k, ∃ hk : k < rows.length,
      r = mkOutcome pc qr_dir pdf_dir (idx + k)
        (rows.get ⟨k, hk⟩).1 (rows.get ⟨k, hk⟩).2 := by
  intro rows
  induction rows with
  | nil =>
    intro idx acc r hr
    rw [processLoop] at hr
    exact Or.inl hr
  | cons row rest ih =>
    intro idx acc r hr
    cases row with
    | mk n num =>
      rw [processLoop] at hr
      cases hg : generate qc num with
      | error e =>
        rw [hg] at hr
        dsimp only at hr
        exact Or.inl hr
      | ok img =>
        rw [hg] at hr
        dsimp only at hr
        rcases ih (idx + 1) _ r hr with hmem | ⟨k, hk, hout⟩
        · rcases List.mem_append.mp hmem with hmem | hmem
          · exact Or.inl hmem
          · right
            refine ⟨0, by simp, ?_⟩
            simp only [List.mem_singleton] at hmem
            simpa [Nat.add_zero] using hmem
        · right
          refine ⟨k + 1, by simpa using hk, ?_⟩
          have : idx + 1 + k = idx + (k + 1) := by omega
          rw [← this]
          simpa using hout

/-- `os.path.dirname` of a joined path whose file name part contains no
separator is the directory part. -/
lemma dirname_pathJoin {d f : String} (hf : ∀ c ∈ f.data, c ≠ '/') :
    dirname (pathJoin d f) = d := by
  unfold dirname pathJoin
  have hdata : (d ++ "/" ++ f).data = d.data ++ '/' :: f.data := by
    simp [String.data_append]
  rw [hdata, List.reverse_append]
  have hrev : ('/' :: f.data).reverse = f.data.reverse ++ ['/'] := by
    simp
  rw [hrev, List.append_assoc, List.singleton_append]
  rw [List.dropWhile_append_of_pos ?hall]
  case hall =>
    intro c hc
    simp only [List.mem_reverse] at hc
    simpa using hf c hc
  rw [List.dropWhile_cons_of_neg (by simp)]
  simp

/-- The file-name part of a generated artifact path is separator-free
when the display name is. -/
lemma artifactFileName_no_slash {idx : Nat} {nm ext : String}
    (hnm : ∀ c ∈ nm.data, c ≠ '/') (hext : ∀ c ∈ ext.data, c ≠ '/') :
    ∀ c ∈ (natStr (idx + 1) ++ "-" ++ nm ++ ext).data, c ≠ '/' := by
  intro c hc
  simp only [String.data_append] at hc
  rcases List.mem_append.mp hc with hc | hc
  · rcases List.mem_append.mp hc with hc | hc
    · rcases List.mem_append.mp hc with hc | hc
      · exact natStr_no_slash c hc
      · simp only [show ("-").data = ['-'] from rfl, List.mem_singleton] at hc
        subst hc
        decide
    · exact hnm c hc
  · exact hext c hc

/-- C8: directory creation is idempotent and never errors —
`os.makedirs(..., exist_ok=True)` succeeds whether or not the directory
exists, creating it (and ancestors) if absent — and after
`process_records` allocates an artifact path, the directory containing
that path is in the directory state created at the start of the run. -/
theorem create_directory_spec :
    (∀ (fs : DirState) (p : String),
      os_makedirs fs p true = .ok (create_directory fs p)) ∧
    (∀ (fs : DirState) (p q : String),
      q ∈ create_directory (create_directory fs p) p ↔
        q ∈ create_directory fs p) ∧
    (∀ (fs : DirState) (p : String), p ∈ create_directory fs p) ∧
    (∀ (rows : List (String × String)) (qr_dir pdf_dir : String)
       (qc : QRCodeConfig) (pc : PDFConfig) (rec : RecordOutcome),
      rec ∈ (process_records rows qr_dir pdf_dir qc pc).records →
      (∀ c ∈ rec.rawName.data, c ≠ '/') →
      dirname rec.qrPath ∈ (process_records rows qr_dir pdf_dir qc pc).dirs ∧
      dirname rec.pdfPath ∈ (process_records rows qr_dir pdf_dir qc pc).dirs) := by
  refine ⟨?_, ?_, ?_, ?_⟩
  · intro fs p
    unfold os_makedirs create_directory
    rw [if_neg]
    simp
  · intro fs p q
    simp only [create_directory, mkdirsAdd, List.mem_cons, List.mem_append]
    tauto
  · intro fs p
    simp [create_directory, mkdirsAdd]
  · intro rows qr_dir pdf_dir qc pc rec hrec hslash
    have hdirs : (process_records rows qr_dir pdf_dir qc pc).dirs =
        create_directory (create_directory [] qr_dir) pdf_dir := by
      unfold process_records
      rw [processLoop_dirs]
    have hmem := processLoop_records_mem qc pc qr_dir pdf_dir rows 0 _ rec hrec
    rcases hmem with hmem | ⟨k, hk, hout⟩
    · exact absurd hmem (by simp)
    · have hname : rec.rawName = (rows.get ⟨k, hk⟩).1 := by rw [hout]; rfl
      rw [hname] at hslash
      constructor
      · have hq : rec.qrPath = pathJoin qr_dir
            (natStr (0 + k + 1) ++ "-" ++ (rows.get ⟨k, hk⟩).1 ++ ".png") := by
          rw [hout]; rfl
        rw [hq, dirname_pathJoin (artifactFileName_no_slash hslash (by decide)),
          hdirs]
        simp only [create_directory, mkdirsAdd, List.mem_cons, List.mem_append]
        tauto
      · have hp : rec.pdfPath = pathJoin pdf_dir
            (natStr (0 + k + 1) ++ "-" ++ (rows.get ⟨k, hk⟩).1 ++ ".pdf") := by
          rw [hout]; rfl
        rw [hp, dirname_pathJoin (artifactFileName_no_slash hslash (by decide)),
          hdirs]
        simp only [create_directory, mkdirsAdd, List.mem_cons, List.mem_append]
        tauto

/-- The record produced by a concrete one-row run. -/
def w8rec : RecordOutcome :=
  (process_records [("Ali", "12345")] "QR_codes" "PDF_files" wqcfg
    wpcfg).records.getD 0 ⟨0, "", "", "", "", []⟩

/-- Witness for C8 at the concrete one-row run: the directory containing
the generated QR path exists in the resulting directory state. -/
theorem create_directory_spec_witness :
    dirname w8rec.qrPath ∈
      (process_records [("Ali", "12345")] "QR_codes" "PDF_files" wqcfg
        wpcfg).dirs :=
  (create_directory_spec.2.2.2 [("Ali", "12345")] "QR_codes" "PDF_files"
    wqcfg wpcfg w8rec
    (by
      rw [show (process_records [("Ali", "12345")] "QR_codes" "PDF_files"
        wqcfg wpcfg).records = [w8rec] from rfl]
      exact List.mem_singleton_self w8rec) (by decide)).1

/-- C10: for every processed record, both artifact file names are built
from the raw display name exactly as read from the row source and from
the record's 1-based row index, while the shaped
(`process_text`-transformed) name appears only as the title text drawn
inside the PDF (operation 3 of the composer trace); the shaping step
never enters the artifact paths. -/
theorem artifact_paths_use_raw_name (rows : List (String × String))
    (qr_dir pdf_dir : String) (qc : QRCodeConfig) (pc : PDFConfig)
    (rec : RecordOutcome)
    (hrec : rec ∈ (process_records rows qr_dir pdf_dir qc pc).records) :
    (∃ k, ∃ hk : k < rows.length,
      rec.rawName = (rows.get ⟨k, hk⟩).1 ∧ rec.rowIndex = k + 1) ∧
    rec.qrPath =
      pathJoin qr_dir (natStr rec.rowIndex ++ "-" ++ rec.rawName ++ ".png") ∧
    rec.pdfPath =
      pathJoin pdf_dir (natStr rec.rowIndex ++ "-" ++ rec.rawName ++ ".pdf") ∧
    rec.pdfOps.get? 3 = some (.drawCentredString ((pc.page_size.1 : ℚ) / 2)
      ((pc.page_size.2 : ℚ) - 100 - (pc.title_y_offset : ℚ))
      (process_text rec.rawName)) := by
  have hmem := processLoop_records_mem qc pc qr_dir pdf_dir rows 0 _ rec hrec
  rcases hmem with hmem | ⟨k, hk, hout⟩
  · exact absurd hmem (by simp)
  · subst hout
    refine ⟨⟨k, hk, rfl, by simp [mkOutcome]⟩, rfl, rfl, rfl⟩

/-- Witness for C10 at the concrete one-row run: the QR path is built
from the raw name and row index. -/
theorem artifact_paths_use_raw_name_witness :
    w8rec.qrPath =
      pathJoin "QR_codes" (natStr w8rec.rowIndex ++ "-" ++ w8rec.rawName ++
        ".png") :=
  (artifact_paths_use_raw_name [("Ali", "12345")] "QR_codes" "PDF_files"
    wqcfg wpcfg w8rec
    (by
      rw [show (process_records [("Ali", "12345")] "QR_codes" "PDF_files"
        wqcfg wpcfg).records = [w8rec] from rfl]
      exact List.mem_singleton_self w8rec)).2.1

end QRGen
